import Mathlib

/-!
Verification of the job-recommendation engine of the
Indian-Tech-Job-Market-Intelligence-Platform repository
(`src/recommendation_engine.py`, with the location normalizer from
`src/data_loader.py`).

The Python code is shallowly embedded: pandas cells that may be NaN become
`Option String`, numpy float arrays become `List ℚ`, a raised exception
becomes the `.error` branch of `Except`, and emitted log records are returned
as a list of levels.  The external collaborators (sklearn's TfidfVectorizer /
cosine_similarity, pickle, the file system) are modelled from the spec, as
noted on the corresponding definitions.
-/

namespace JobReco

/-- Exceptions a modelled Python operation can raise. -/
inductive PyExc where
  | typeError
  | valueError
  | fileNotFound
  | attributeError
deriving DecidableEq

/-- Level of a record emitted through `logging` (messages are abstracted). -/
inductive LogEvent where
  | warn
  | err
  | info
deriving DecidableEq

/-- Python `str(cell)` on a pandas cell: NaN prints as `"nan"`. -/
def strOfCell : Option String → String
  | none => "nan"
  | some s => s

/-- ASCII model of Python `str.lower` on one character. -/
def pyLowerChar (c : Char) : Char :=
  if 65 ≤ c.toNat ∧ c.toNat ≤ 90 then Char.ofNat (c.toNat + 32) else c

/-- Model of Python `str.lower` (inputs in this code base are ASCII). -/
def pyLower (s : String) : String :=
  String.mk (s.data.map pyLowerChar)

/-- Model of Python `str.strip` with no argument: trim ASCII whitespace. -/
def pyStrip (s : String) : String :=
  String.mk (((s.data.dropWhile Char.isWhitespace).reverse.dropWhile
    Char.isWhitespace).reverse)

/-- Split a character list at every occurrence of `sep`, keeping empty
pieces, as Python `str.split(sep)` does for a one-character separator. -/
def splitChar (sep : Char) : List Char → List (List Char)
  | [] => [[]]
  | c :: cs =>
    let r := splitChar sep cs
    if c = sep then [] :: r
    else
      match r with
      | g :: gs => (c :: g) :: gs
      | [] => [[c]]

/-- Model of Python `s.split(',')`. -/
def pySplitComma (s : String) : List String :=
  (splitChar ',' s.data).map String.mk

/-- Whether `sub` is a prefix of `l` (used to model Python `in`). -/
def prefixChars : List Char → List Char → Bool
  | [], _ => true
  | _ :: _, [] => false
  | a :: as, b :: bs => a = b && prefixChars as bs

/-- Whether `sub` occurs contiguously inside `l`. -/
def infixChars (sub : List Char) : List Char → Bool
  | [] => sub.isEmpty
  | b :: bs => prefixChars sub (b :: bs) || infixChars sub bs

/-- Model of the Python substring test `sub in s`. -/
def containsSub (sub s : String) : Bool :=
  infixChars sub.data s.data

/-- Model of Python `str.title()` restricted to the single lowercase words it
is applied to here (the city keys below): capitalize the first character. -/
def pyTitle (s : String) : String :=
  match s.data with
  | [] => ""
  | c :: cs => String.mk (Char.ofNat (c.toNat - 32) :: cs)

/-- The city keyword table of `data_loader.normalize_location`, in the
source's insertion order. -/
def cityKeywords : List (String × List String) :=
  [("mumbai", ["mumbai", "powai", "goregaon", "andheri", "charni",
               "prabhadevi", "trombay", "nana peth"]),
   ("bangalore", ["bangalore", "madivala", "muthusandra", "banasavangee"]),
   ("hyderabad", ["hyderabad", "kyasaram"]),
   ("pune", ["pune", "baner", "vadgaon", "hadapsar", "warje", "nana peth"]),
   ("chennai", ["chennai", "injambakkam", "chintadripet", "ttti taramani",
                "egmore", "gopalapuram"]),
   ("delhi", ["delhi", "new delhi", "north delhi", "south delhi",
              "chandni chowk", "timarpur", "jeevan park", "lajpat nagar",
              "sarita vihar", "sansad marg"]),
   ("remote", ["remote"])]

/-- Embedding of `data_loader.normalize_location`: map a raw location cell to
a canonical city name; NaN gives `"Unknown"`, unmatched strings give
`"India"` or `"Other"`. -/
def normalizeLocation (cell : Option String) : String :=
  match cell with
  | none => "Unknown"
  | some s =>
    let location := pyLower (pyStrip s)
    match cityKeywords.find? (fun ck => ck.2.any (fun kw => containsSub kw location)) with
    | some ck => pyTitle ck.1
    | none => if containsSub "india" location then "India" else "Other"

/-- Maximal runs of decimal digits in a character list, the model of
`re.findall(r'\d+', s)`; `cur` carries the current run reversed. -/
def digitRuns (cur : List Char) : List Char → List (List Char)
  | [] => if cur.isEmpty then [] else [cur.reverse]
  | c :: rest =>
    if c.isDigit then digitRuns (c :: cur) rest
    else if cur.isEmpty then digitRuns [] rest
    else cur.reverse :: digitRuns [] rest

/-- Numeric value of a digit run, the model of Python `int(...)`. -/
def digitsToNat (ds : List Char) : Nat :=
  ds.foldl (fun a c => 10 * a + (c.toNat - 48)) 0

/-- All numbers appearing in a string, in order. -/
def extractNumbers (s : String) : List Nat :=
  (digitRuns [] s.data).map digitsToNat

/-- Embedding of `_parse_experience_years`: a NaN or empty cell has no range;
two numbers give `(lo, hi)`; one number `n` gives `(n, n + 2)`; otherwise the
keyword heuristics apply.  (Nothing in the body can raise, so the source's
`except: return None` is unreachable.) -/
def parseExperienceYears (cell : Option String) : Option (Nat × Nat) :=
  match cell with
  | none => none
  | some s =>
    if s = "" then none
    else
      let t := pyLower s
      match extractNumbers t with
      | n0 :: n1 :: _ => some (n0, n1)
      | [n] => some (n, n + 2)
      | [] =>
        if containsSub "fresher" t || containsSub "entry" t then some (0, 2)
        else if containsSub "senior" t || containsSub "lead" t then some (5, 10)
        else some (2, 5)

/-- A row of the job corpus (`jobs_df`); free-text cells may be NaN. -/
structure Job where
  job_id : Option String
  title : Option String
  company : Option String
  skills : Option String
  experience : Option String
  location : Option String
  description : Option String
deriving DecidableEq

/-- The query input of `calculate_match` (`user_profile.get` defaults make
every field total). -/
structure UserProfile where
  skills : List String
  role : String
  experience : String
  location : String
deriving DecidableEq

/-- Model of the sklearn `TfidfVectorizer` object: all the engine inspects on
it is whether the fitted state (`idf_`, `vocabulary_`) is populated. -/
structure Vectorizer where
  idfFitted : Bool
deriving DecidableEq

/-- Modelled from the spec: the stored per-job vector matrix, fused with the
fitted vectorizer's `transform` and sklearn's `cosine_similarity`.  `sim q`
is the list of cosine similarities of the transformed query `q` against the
rows of the matrix; per the spec (§4.2 step 2 and the glossary) it yields one
value per posting, each in `[0, 1]`. -/
structure JobVecs where
  n : Nat
  sim : String → List ℚ
  sim_len : ∀ q, (sim q).length = n
  sim_mem : ∀ q x, x ∈ sim q → 0 ≤ x ∧ x ≤ 1

/-- The three fields of `JobRecommendationEngine`. -/
structure Engine where
  vectorizer : Option Vectorizer
  job_vectors : Option JobVecs
  jobs_df : Option (List Job)

/-- The state `__init__` leaves behind. -/
def untrainedEngine : Engine := ⟨none, none, none⟩

/-- Python 3 ordering comparison (`>=`, `<=`, `<`) between `user_years` — a
tuple or `None` — and an `int`: it always raises `TypeError`. -/
def pyCmpYears (_userYears : Option (Nat × Nat)) (_bound : Nat) : Except PyExc Bool :=
  .error .typeError

/-- Python 3 subtraction `int - (tuple | None)`: always raises `TypeError`. -/
def pySubYears (_bound : Nat) (_userYears : Option (Nat × Nat)) : Except PyExc ℚ :=
  .error .typeError

/-- One iteration of the loop of `_calculate_experience_match`.  When the job
range parses, the source compares `user_years` (a tuple or `None`) against
ints, which raises `TypeError` at the first comparison; the later branches
are embedded for structure but are unreachable. -/
def scoreOneJob (userYears : Option (Nat × Nat)) (jobExp : String) : Except PyExc ℚ :=
  match parseExperienceYears (some jobExp) with
  | none => .ok (1/2)
  | some (lo, hi) =>
    match pyCmpYears userYears lo with
    | .error ex => .error ex
    | .ok geLo =>
      match (if geLo then pyCmpYears userYears hi else .ok false) with
      | .error ex => .error ex
      | .ok leHi =>
        if geLo && leHi then .ok 1
        else
          match pyCmpYears userYears lo with
          | .error ex => .error ex
          | .ok ltLo =>
            if ltLo then
              match pySubYears lo userYears with
              | .error ex => .error ex
              | .ok diff => .ok (max 0 (1 - diff * (2/10)))
            else .ok (9/10)

/-- The loop of `_calculate_experience_match`; the first raised exception
aborts the whole loop. -/
def expScoresList (userYears : Option (Nat × Nat)) : List String → Except PyExc (List ℚ)
  | [] => .ok []
  | e :: es =>
    match scoreOneJob userYears e with
    | .error ex => .error ex
    | .ok m =>
      match expScoresList userYears es with
      | .error ex => .error ex
      | .ok ms => .ok (m :: ms)

/-- Embedding of `_calculate_experience_match`: parse the user's experience,
score each job, and on any exception fall back to `np.zeros(len(...))` as
the source's `except` clause does (it also logs an error, not modelled). -/
def calcExperienceMatch (userExp : String) (jobExps : List (Option String)) : List ℚ :=
  let userYears := parseExperienceYears (some userExp)
  match expScoresList userYears (jobExps.map strOfCell) with
  | .ok ms => ms
  | .error _ => List.replicate jobExps.length 0

/-- The per-posting body of the loop of `_calculate_location_match` (the
source binds `normalized_job_loc` once; it is inlined here). -/
def locPointwise (userLoc : String) (jobLoc : Option String) : ℚ :=
  if pyLower (normalizeLocation jobLoc) = pyLower userLoc then 1
  else if containsSub "remote" (pyLower (normalizeLocation jobLoc)) then 1
  else 0

/-- Embedding of `_calculate_location_match`: an empty or `"any"` preference
scores every posting 1; otherwise each posting is scored by `locPointwise`.
Nothing in the body can raise, so the source's `except` clause (which would
return all zeros) is unreachable. -/
def calcLocationMatch (userLoc : String) (jobLocs : List (Option String)) : List ℚ :=
  if userLoc = "" ∨ pyLower userLoc = "any" then List.replicate jobLocs.length 1
  else jobLocs.map (locPointwise userLoc)

/-- The posting's skill tokens: comma-split, stripped, lowercased. -/
def jobSkillTokens (cell : Option String) : List String :=
  match cell with
  | none => []
  | some s => (pySplitComma s).map (fun t => pyLower (pyStrip t))

/-- Embedding of `_get_matched_skills` (the source joins the result with
`', '`; the list itself is kept here). -/
def getMatchedSkills (userSkills : List String) (cell : Option String) : List String :=
  match cell with
  | none => []
  | some s =>
    let jobSkills := (pySplitComma s).map (fun t => pyLower (pyStrip t))
    let userLower := userSkills.map pyLower
    jobSkills.filter (fun t => userLower.elem t)

/-- Embedding of `_get_missing_skills`, capped at 5 entries. -/
def getMissingSkills (userSkills : List String) (cell : Option String) : List String :=
  match cell with
  | none => []
  | some s =>
    let jobSkills := (pySplitComma s).map (fun t => pyLower (pyStrip t))
    let userLower := userSkills.map pyLower
    (jobSkills.filter (fun t => !(userLower.elem t))).take 5

/-- Round half to even to an integer, as `numpy.round` does (floats are
modelled as exact rationals). -/
def rhe (q : ℚ) : ℤ :=
  if q - (⌊q⌋ : ℚ) < 1/2 then ⌊q⌋
  else if (1/2 : ℚ) < q - (⌊q⌋ : ℚ) then ⌊q⌋ + 1
  else if ⌊q⌋ % 2 = 0 then ⌊q⌋ else ⌊q⌋ + 1

/-- `numpy` `.round(2)`: round to two decimal places, half to even. -/
def npRound2 (x : ℚ) : ℚ := ((rhe (x * 100) : ℤ) : ℚ) / 100

/-- One row of the result frame of `calculate_match`: the job's cells plus
the four score columns and the two explanation columns. -/
structure Row where
  job : Job
  match_score : ℚ
  skills_match : ℚ
  experience_match : ℚ
  location_match : ℚ
  matched_skills : List String
  missing_skills : List String
deriving DecidableEq

/-- Build one result row from the three per-posting sub-signals, exactly as
lines 117-137 of `recommendation_engine.py` populate the columns. -/
def mkRow (userSkills : List String) (j : Job) (s e l : ℚ) : Row :=
  { job := j
    match_score := npRound2 ((s * (7/10) + e * (2/10) + l * (1/10)) * 100)
    skills_match := npRound2 (s * 100)
    experience_match := npRound2 (e * 100)
    location_match := npRound2 (l * 100)
    matched_skills := getMatchedSkills userSkills j.skills
    missing_skills := getMissingSkills userSkills j.skills }

/-- Zip the corpus with the three aligned signal arrays into result rows
(pandas aligns the columns positionally; the lists always have equal length
when this is called). -/
def scoreRows (userSkills : List String) :
    List Job → List ℚ → List ℚ → List ℚ → List Row
  | j :: js, s :: ss, e :: es, l :: ls =>
    mkRow userSkills j s e l :: scoreRows userSkills js ss es ls
  | _, _, _, _ => []

/-- Insert a row into a list that is sorted by descending `match_score`. -/
def insertDesc (r : Row) : List Row → List Row
  | [] => [r]
  | x :: xs =>
    if x.match_score < r.match_score then r :: x :: xs
    else x :: insertDesc r xs

/-- Model of `sort_values('match_score', ascending=False)`: a sort producing
descending `match_score` order. -/
def sortByScoreDesc : List Row → List Row
  | [] => []
  | r :: rs => insertDesc r (sortByScoreDesc rs)

/-- The query string `' '.join(user_skills) + ' ' + user_role`. -/
def userQueryText (p : UserProfile) : String :=
  String.intercalate " " p.skills ++ " " ++ p.role

/-- Embedding of `calculate_match`.  The untrained and unfitted guards return
an empty frame with a logged warning resp. error; a missing vector matrix or
a shape mismatch between the similarity array and the corpus would raise
inside the `try` and be re-raised as `CustomException` (the `.error`
branch); otherwise the scored rows are sorted descending and truncated to
`top_n`, with an info record logged. -/
def calculateMatch (eng : Engine) (p : UserProfile) (topN : Nat) :
    Except PyExc (List Row × List LogEvent) :=
  match eng.vectorizer, eng.jobs_df with
  | none, _ => .ok ([], [.warn])
  | some _, none => .ok ([], [.warn])
  | some v, some jobs =>
    if v.idfFitted = false then .ok ([], [.err])
    else
      match eng.job_vectors with
      | none => .error .typeError
      | some jv =>
        let sims := jv.sim (userQueryText p)
        if sims.length = jobs.length then
          .ok ((sortByScoreDesc (scoreRows p.skills jobs sims
                  (calcExperienceMatch p.experience (jobs.map (fun j => j.experience)))
                  (calcLocationMatch p.location (jobs.map (fun j => j.location))))).take topN,
               [.info])
        else .error .valueError

/-- Model of `os.path.dirname` (posixpath): the part before the last `/`,
with trailing slashes stripped unless the head is all slashes; a bare
filename has dirname `""`. -/
def pyDirname (p : String) : String :=
  let head := (p.data.reverse.dropWhile (fun c => c ≠ '/')).reverse
  if head.isEmpty then ""
  else if head.all (fun c => c = '/') then String.mk head
  else String.mk ((head.reverse.dropWhile (fun c => c = '/')).reverse)

/-- The dict `save_model` pickles: the engine's three fields as one unit. -/
structure ModelData where
  vectorizer : Option Vectorizer
  job_vectors : Option JobVecs
  jobs_df : Option (List Job)

/-- A stored blob; `none` models a file whose unpickling raises. -/
abbrev Blob := Option ModelData

/-- Modelled from the spec: the file system seen through `os` and `open`, a
path-indexed store of pickled blobs (later writes shadow earlier ones). -/
abbrev Store := List (String × Blob)

/-- Look a path up in the store. -/
def lookupFile : Store → String → Option Blob
  | [], _ => none
  | (p, b) :: rest, path => if p = path then some b else lookupFile rest path

/-- Write a blob at a path. -/
def setFile (fs : Store) (path : String) (b : Blob) : Store :=
  (path, b) :: fs

/-- Embedding of `save_model`.  `os.makedirs('')` (a bare filename's parent)
raises before anything is written; after pickling, the logging block reads
`self.vectorizer.vocabulary_`, which raises `AttributeError` when the
vectorizer is absent or unfitted — the `except` clause wraps either
exception in `CustomException` and re-raises (on the second error the file
has in fact been written; no claim observes that partial state, so the
failing result carries no store). -/
def saveModel (eng : Engine) (filepath : String) (fs : Store) : Except PyExc Store :=
  if pyDirname filepath = "" then .error .fileNotFound
  else
    let fs' := setFile fs filepath (some ⟨eng.vectorizer, eng.job_vectors, eng.jobs_df⟩)
    match eng.vectorizer with
    | none => .error .attributeError
    | some v => if v.idfFitted then .ok fs' else .error .attributeError

/-- Embedding of `load_model`: a missing path warns and returns `False`
leaving the engine untouched; an unpickling failure is caught, logs an
error, resets all three fields and returns `False`; a recovered vectorizer
without populated `idf_` logs a warning, resets all three fields and returns
`False`; otherwise the three fields are installed and `True` is returned. -/
def loadModel (filepath : String) (fs : Store) (eng : Engine) :
    Bool × Engine × List LogEvent :=
  match lookupFile fs filepath with
  | none => (false, eng, [.warn])
  | some none => (false, untrainedEngine, [.err])
  | some (some md) =>
    match md.vectorizer with
    | none => (false, untrainedEngine, [.warn])
    | some v =>
      if v.idfFitted then (true, ⟨some v, md.job_vectors, md.jobs_df⟩, [.info])
      else (false, untrainedEngine, [.warn])

/-- Embedding of `train`, parameterized by the external fitting step `fit`
(sklearn's `TfidfVectorizer(...).fit_transform` over the combined
title-skills-description text; modelled from the spec as an arbitrary
fallible producer of a fitted vectorizer and a vector matrix).  An empty
corpus logs a warning and leaves the engine untouched; a fitting exception
is wrapped and re-raised (the partial state the source leaves behind in that
case — a fresh unfitted vectorizer and the copied corpus — is not
modelled); success installs all three fields.  The `combined_text` column
added to the stored copy only feeds `fit` and is not modelled as a separate
column. -/
def trainWith (fit : List Job → Except PyExc (Vectorizer × JobVecs))
    (jobs : List Job) (eng : Engine) : Except PyExc (Engine × List LogEvent) :=
  if jobs.isEmpty then .ok (eng, [.warn])
  else
    match fit jobs with
    | .error ex => .error ex
    | .ok (v, jv) => .ok (⟨some v, some jv, some jobs⟩, [.info])

/-- Derived pointwise view of the location signal: the value
`_calculate_location_match` assigns to one posting, including the
no-preference branch. -/
def locSignal (userLoc : String) (jobLoc : Option String) : ℚ :=
  if userLoc = "" ∨ pyLower userLoc = "any" then 1 else locPointwise userLoc jobLoc

/-- Descending comparison on the score column. -/
def descOrder (a b : Row) : Prop := b.match_score ≤ a.match_score

/-- A sample posting used to instantiate the theorems below. -/
def job1 : Job :=
  ⟨some "J1", some "Engineer", some "Acme", some "Python, Django",
   some "2-5 years", some "Bangalore", some "desc"⟩

/-- A posting whose experience cell is the empty string (no parsed range). -/
def jobNoExp : Job :=
  ⟨some "J2", some "Analyst", some "Acme", some "SQL",
   some "", some "Mumbai", some "desc"⟩

/-- A posting located in Mumbai. -/
def jobMumbai : Job :=
  ⟨some "J3", some "Engineer", some "Acme", some "Java",
   some "2-5 years", some "Mumbai", some "desc"⟩

/-- A one-posting vector matrix with constant cosine similarity 1/2. -/
def jv1 : JobVecs where
  n := 1
  sim := fun _ => [1/2]
  sim_len := fun _ => rfl
  sim_mem := fun _ x h => by
    rw [List.mem_singleton] at h
    rw [h]
    constructor <;> norm_num

/-- A trained one-posting engine. -/
def eng1 : Engine := ⟨some ⟨true⟩, some jv1, some [job1]⟩

/-- A trained engine whose single posting has an unparseable experience. -/
def engNoExp : Engine := ⟨some ⟨true⟩, some jv1, some [jobNoExp]⟩

/-- A trained engine whose single posting sits in Mumbai. -/
def engMumbai : Engine := ⟨some ⟨true⟩, some jv1, some [jobMumbai]⟩

/-- An engine left behind by a fitting failure: the vectorizer object exists
but its fitted state is not populated. -/
def engUnfitted : Engine := ⟨some ⟨false⟩, none, some [job1]⟩

/-- A sample profile: in-range experience, Bangalore preference. -/
def prof1 : UserProfile := ⟨["Python"], "Engineer", "3 years", "Bangalore"⟩

/-- A profile whose single parsed experience value is 3. -/
def profPoint3 : UserProfile := ⟨["Python"], "Engineer", "3", "Bangalore"⟩

/-- A profile whose location "Powai" normalizes to Mumbai. -/
def profPowai : UserProfile := ⟨["Python"], "Engineer", "3 years", "Powai"⟩

/-- Modelled from the spec: one concrete possible outcome of the external
TF-IDF fitting step — a fitted vectorizer and a matrix yielding constant
similarity 1/2 per posting. -/
def fitW (js : List Job) : Except PyExc (Vectorizer × JobVecs) :=
  .ok (⟨true⟩,
    ⟨js.length, fun _ => List.replicate js.length (1/2),
     fun _ => List.length_replicate _ _,
     fun _ x hx => by
       rw [List.eq_of_mem_replicate hx]
       constructor <;> norm_num⟩)

/-- The engine `trainWith fitW [job1]` produces. -/
def engTrained1 : Engine :=
  ⟨some ⟨true⟩,
   some ⟨1, fun _ => List.replicate 1 (1/2),
         fun _ => List.length_replicate _ _,
         fun _ x hx => by
           rw [List.eq_of_mem_replicate hx]
           constructor <;> norm_num⟩,
   some [job1]⟩

/-- The row `eng1` produces for `prof1` (and for `profPoint3`): cosine 1/2,
experience signal 0 (the comparison bug), location signal 1. -/
def row1 : Row := mkRow ["Python"] job1 (1/2) 0 1

/-- The row `engNoExp` produces for `prof1`: the lone unparseable-experience
posting gets the neutral signal 1/2; its location differs, signal 0. -/
def rowNoExp : Row := mkRow ["Python"] jobNoExp (1/2) (1/2) 0

/-- The row `engMumbai` produces for `profPowai`: the user location is
compared unnormalized, so the location signal is 0. -/
def rowPowaiMumbai : Row := mkRow ["Python"] jobMumbai (1/2) 0 0

/-- A posting with a parseable experience range, alongside `jobNoExp`. -/
def jobExpRange : Job :=
  ⟨some "J4", some "Engineer", some "Acme", some "Java",
   some "2-5 years", some "Mumbai", some "desc"⟩

/-- A two-posting vector matrix with constant cosine similarity 1/2. -/
def jv2 : JobVecs where
  n := 2
  sim := fun _ => [1/2, 1/2]
  sim_len := fun _ => rfl
  sim_mem := fun _ x h => by
    rcases List.mem_cons.mp h with h | h
    · rw [h]; constructor <;> norm_num
    · rw [List.mem_singleton] at h
      rw [h]; constructor <;> norm_num

/-- A trained engine holding one unparseable-experience posting and one
parseable-experience posting. -/
def engPair : Engine := ⟨some ⟨true⟩, some jv2, some [jobNoExp, jobExpRange]⟩

/-- A profile with no location preference. -/
def profAny : UserProfile := ⟨["Python"], "Engineer", "3 years", ""⟩

/-- The row `engPair` produces for its unparseable-experience posting: the
sibling posting's parseable range triggers the comparison bug, zeroing the
whole experience array. -/
def rowPairNoExp : Row := mkRow ["Python"] jobNoExp (1/2) 0 1

/-- The row `engPair` produces for its parseable-experience posting. -/
def rowPairRange : Row := mkRow ["Python"] jobExpRange (1/2) 0 1

/-- Half-even rounding of a nonnegative rational is nonnegative. -/
theorem rhe_nonneg (q : ℚ) (hq : 0 ≤ q) : 0 ≤ rhe q := by
  have hf : (0 : ℤ) ≤ ⌊q⌋ := Int.floor_nonneg.mpr hq
  unfold rhe
  split_ifs <;> omega

/-- Half-even rounding never overshoots an integer upper bound. -/
theorem rhe_le_int (q : ℚ) (n : ℤ) (h : q ≤ (n : ℚ)) : rhe q ≤ n := by
  have h1 : ⌊q⌋ ≤ n := by
    have := Int.floor_le_floor h
    rwa [Int.floor_intCast] at this
  have hfl : (⌊q⌋ : ℚ) ≤ q := Int.floor_le q
  unfold rhe
  split_ifs with hA hB hC
  · exact h1
  · have h2 : (⌊q⌋ : ℚ) < q := by linarith
    have h3 : ⌊q⌋ < n := by exact_mod_cast lt_of_lt_of_le h2 h
    omega
  · exact h1
  · push_neg at hA
    have h2 : (⌊q⌋ : ℚ) < q := by linarith
    have h3 : ⌊q⌋ < n := by exact_mod_cast lt_of_lt_of_le h2 h
    omega

/-- The rounded two-decimal value of a signal in `[0, 1]`, scaled by 100,
stays in `[0, 100]`. -/
theorem npRound2_bounds (x : ℚ) (h0 : 0 ≤ x) (h1 : x ≤ 100) :
    0 ≤ npRound2 x ∧ npRound2 x ≤ 100 := by
  have ha : (0 : ℤ) ≤ rhe (x * 100) := rhe_nonneg _ (by linarith)
  have hb : rhe (x * 100) ≤ (10000 : ℤ) := by
    apply rhe_le_int
    push_cast
    linarith
  constructor
  · unfold npRound2
    positivity
  · unfold npRound2
    have : ((rhe (x * 100) : ℤ) : ℚ) ≤ 10000 := by exact_mod_cast hb
    linarith

/-- Concrete value: a signal of 1 rounds to a column value of 100. -/
theorem npRound2_one : npRound2 ((1 : ℚ) * 100) = 100 := by
  norm_num [npRound2, rhe]

/-- Concrete value: a signal of 0 rounds to a column value of 0. -/
theorem npRound2_zero : npRound2 ((0 : ℚ) * 100) = 0 := by
  norm_num [npRound2, rhe]

/-- Concrete value: a signal of 1/2 rounds to a column value of 50. -/
theorem npRound2_half : npRound2 ((1 / 2 : ℚ) * 100) = 50 := by
  norm_num [npRound2, rhe]

/-- When the job-side loop of `_calculate_experience_match` survives without
an exception, every produced score is the neutral 1/2 (every parseable
posting range raises before scoring). -/
theorem expScoresList_ok_mem (uy : Option (Nat × Nat)) (es : List String)
    (ms : List ℚ) (h : expScoresList uy es = .ok ms) :
    ∀ x ∈ ms, x = 1 / 2 := by
  induction es generalizing ms with
  | nil =>
    simp only [expScoresList] at h
    cases h
    intro x hx
    cases hx
  | cons e es ih =>
    simp only [expScoresList] at h
    cases hse : scoreOneJob uy e with
    | error ex => rw [hse] at h; cases h
    | ok m =>
      rw [hse] at h
      cases hrest : expScoresList uy es with
      | error ex => rw [hrest] at h; cases h
      | ok ms' =>
        rw [hrest] at h
        cases h
        have hm : m = 1 / 2 := by
          unfold scoreOneJob at hse
          cases hp : parseExperienceYears (some e) with
          | none => rw [hp] at hse; cases hse; rfl
          | some lohi =>
            obtain ⟨lo, hi⟩ := lohi
            rw [hp] at hse
            simp only [pyCmpYears] at hse
            cases hse
        intro x hx
        rcases List.mem_cons.mp hx with hx | hx
        · rw [hx]; exact hm
        · exact ih ms' hrest x hx

/-- Every entry of the experience signal array is 0 or 1/2: the comparison
bug zeroes the whole array as soon as any posting range parses, and
otherwise every posting gets the neutral score. -/
theorem calcExperienceMatch_mem (u : String) (es : List (Option String)) :
    ∀ x ∈ calcExperienceMatch u es, x = 0 ∨ x = 1 / 2 := by
  intro x hx
  have hx' : x ∈ (match expScoresList (parseExperienceYears (some u)) (es.map strOfCell) with
    | Except.ok ms => ms
    | Except.error _ => List.replicate es.length (0 : ℚ)) := hx
  cases hsc : expScoresList (parseExperienceYears (some u)) (es.map strOfCell) with
  | ok ms =>
    rw [hsc] at hx'
    exact Or.inr (expScoresList_ok_mem _ _ _ hsc x hx')
  | error ex =>
    rw [hsc] at hx'
    exact Or.inl (List.eq_of_mem_replicate hx')

/-- The location array is the pointwise `locSignal` over the postings. -/
theorem calcLocationMatch_eq_map (u : String) (ls : List (Option String)) :
    calcLocationMatch u ls = ls.map (locSignal u) := by
  unfold calcLocationMatch locSignal
  split_ifs with h
  · simp [List.map_const']
  · rfl

/-- The location signal is binary. -/
theorem locSignal_cases (u : String) (l : Option String) :
    locSignal u l = 0 ∨ locSignal u l = 1 := by
  unfold locSignal locPointwise
  split_ifs <;> simp

/-- Decompose membership in the zipped score rows. -/
theorem mem_scoreRows (us : List String) (jobs : List Job)
    (ss es ls : List ℚ) (row : Row)
    (h : row ∈ scoreRows us jobs ss es ls) :
    ∃ j s e l, j ∈ jobs ∧ s ∈ ss ∧ e ∈ es ∧ l ∈ ls ∧
      row = mkRow us j s e l := by
  induction jobs generalizing ss es ls with
  | nil => simp [scoreRows] at h
  | cons j js ih =>
    cases ss with
    | nil => simp [scoreRows] at h
    | cons s ss =>
      cases es with
      | nil => simp [scoreRows] at h
      | cons e es =>
        cases ls with
        | nil => simp [scoreRows] at h
        | cons l ls =>
          rw [scoreRows] at h
          rcases List.mem_cons.mp h with h | h
          · exact ⟨j, s, e, l, List.mem_cons_self _ _, List.mem_cons_self _ _,
              List.mem_cons_self _ _, List.mem_cons_self _ _, h⟩
          · obtain ⟨j', s', e', l', hj, hs, he, hl, hrow⟩ := ih ss es ls h
            exact ⟨j', s', e', l', List.mem_cons_of_mem _ hj,
              List.mem_cons_of_mem _ hs, List.mem_cons_of_mem _ he,
              List.mem_cons_of_mem _ hl, hrow⟩

/-- Decompose membership in the score rows when the location column is the
pointwise image of the job list, keeping the alignment between a row's job
and its location signal. -/
theorem mem_scoreRows_aligned (us : List String) (jobs : List Job)
    (ss es : List ℚ) (fl : Job → ℚ) (row : Row)
    (h : row ∈ scoreRows us jobs ss es (jobs.map fl)) :
    ∃ j s e, j ∈ jobs ∧ s ∈ ss ∧ e ∈ es ∧ row = mkRow us j s e (fl j) := by
  induction jobs generalizing ss es with
  | nil => simp [scoreRows] at h
  | cons j js ih =>
    cases ss with
    | nil => simp [scoreRows] at h
    | cons s ss =>
      cases es with
      | nil => simp [scoreRows] at h
      | cons e es =>
        rw [List.map_cons, scoreRows] at h
        rcases List.mem_cons.mp h with h | h
        · exact ⟨j, s, e, List.mem_cons_self _ _, List.mem_cons_self _ _,
            List.mem_cons_self _ _, h⟩
        · obtain ⟨j', s', e', hj, hs, he, hrow⟩ := ih ss es h
          exact ⟨j', s', e', List.mem_cons_of_mem _ hj,
            List.mem_cons_of_mem _ hs, List.mem_cons_of_mem _ he, hrow⟩

/-- Membership is preserved by descending insertion. -/
theorem mem_insertDesc (r a : Row) (l : List Row) :
    a ∈ insertDesc r l ↔ a = r ∨ a ∈ l := by
  induction l with
  | nil => simp [insertDesc]
  | cons x xs ih =>
    unfold insertDesc
    split_ifs with h
    · constructor
      · intro hm
        rcases List.mem_cons.mp hm with hm | hm
        · exact Or.inl hm
        · exact Or.inr hm
      · intro hm
        rcases hm with hm | hm
        · exact List.mem_cons.mpr (Or.inl hm)
        · exact List.mem_cons.mpr (Or.inr hm)
    · rw [List.mem_cons, ih, List.mem_cons]
      tauto

/-- Descending insertion preserves descending sortedness. -/
theorem pairwise_insertDesc (r : Row) (l : List Row)
    (h : l.Pairwise descOrder) : (insertDesc r l).Pairwise descOrder := by
  induction l with
  | nil => simp [insertDesc, List.pairwise_cons]
  | cons x xs ih =>
    rw [List.pairwise_cons] at h
    obtain ⟨hx, hxs⟩ := h
    unfold insertDesc
    split_ifs with hlt
    · rw [List.pairwise_cons]
      constructor
      · intro b hb
        rcases List.mem_cons.mp hb with hb | hb
        · rw [hb]; exact le_of_lt hlt
        · exact le_trans (hx b hb) (le_of_lt hlt)
      · rw [List.pairwise_cons]
        exact ⟨hx, hxs⟩
    · rw [List.pairwise_cons]
      constructor
      · intro b hb
        rcases (mem_insertDesc r b xs).mp hb with hb | hb
        · rw [hb]
          exact not_lt.mp hlt
        · exact hx b hb
      · exact ih hxs

/-- Membership is preserved by the sort. -/
theorem mem_sortByScoreDesc (a : Row) (l : List Row) :
    a ∈ sortByScoreDesc l ↔ a ∈ l := by
  induction l with
  | nil => simp [sortByScoreDesc]
  | cons x xs ih =>
    rw [sortByScoreDesc, mem_insertDesc, ih, List.mem_cons]

/-- The sort produces descending `match_score` order. -/
theorem sortByScoreDesc_pairwise (l : List Row) :
    (sortByScoreDesc l).Pairwise descOrder := by
  induction l with
  | nil => simp [sortByScoreDesc]
  | cons x xs ih => exact pairwise_insertDesc x _ ih

/-- A freshly written blob is found at its path. -/
theorem lookupFile_setFile (fs : Store) (path : String) (b : Blob) :
    lookupFile (setFile fs path b) path = some b := by
  simp [lookupFile, setFile]

/-- Case analysis on a successful `calculate_match`: either a guard returned
the empty frame, or the engine was fully populated and the rows are the
sorted, truncated scored corpus. -/
theorem calculateMatch_ok_cases (eng : Engine) (p : UserProfile) (topN : Nat)
    (rows : List Row) (logs : List LogEvent)
    (h : calculateMatch eng p topN = .ok (rows, logs)) :
    rows = [] ∨
    ∃ v jv jobs, eng.vectorizer = some v ∧ eng.job_vectors = some jv ∧
      eng.jobs_df = some jobs ∧ v.idfFitted = true ∧
      (jv.sim (userQueryText p)).length = jobs.length ∧
      rows = (sortByScoreDesc (scoreRows p.skills jobs (jv.sim (userQueryText p))
        (calcExperienceMatch p.experience (jobs.map (fun j => j.experience)))
        (calcLocationMatch p.location (jobs.map (fun j => j.location))))).take topN := by
  obtain ⟨ov, ojv, oj⟩ := eng
  cases ov with
  | none =>
    cases h
    exact Or.inl rfl
  | some v =>
    cases oj with
    | none =>
      cases h
      exact Or.inl rfl
    | some jobs =>
      unfold calculateMatch at h
      dsimp only at h
      by_cases hfit : v.idfFitted = false
      · rw [if_pos hfit] at h
        cases h
        exact Or.inl rfl
      · rw [if_neg hfit] at h
        cases ojv with
        | none => cases h
        | some jv =>
          dsimp only at h
          by_cases hlen : (jv.sim (userQueryText p)).length = jobs.length
          · rw [if_pos hlen] at h
            refine Or.inr ⟨v, jv, jobs, rfl, rfl, rfl, ?_, hlen, ?_⟩
            · cases hb : v.idfFitted
              · exact absurd hb hfit
              · rfl
            · cases h
              rfl
          · rw [if_neg hlen] at h
            cases h

/-- Every returned row is built by `mkRow` from a corpus job and three
sub-signals with the documented ranges. -/
theorem calculateMatch_row_shape (eng : Engine) (p : UserProfile) (topN : Nat)
    (rows : List Row) (logs : List LogEvent)
    (h : calculateMatch eng p topN = .ok (rows, logs))
    (row : Row) (hr : row ∈ rows) :
    ∃ j s e l, (0 ≤ s ∧ s ≤ 1) ∧ (e = 0 ∨ e = 1 / 2) ∧ (l = 0 ∨ l = 1) ∧
      row = mkRow p.skills j s e l := by
  rcases calculateMatch_ok_cases eng p topN rows logs h with hempty | hmain
  · rw [hempty] at hr
    cases hr
  · obtain ⟨v, jv, jobs, _, _, _, _, _, hrows⟩ := hmain
    rw [hrows] at hr
    have hr1 := List.mem_of_mem_take hr
    have hr2 := (mem_sortByScoreDesc _ _).mp hr1
    obtain ⟨j, s, e, l, _, hs, he, hl, hrow⟩ :=
      mem_scoreRows _ _ _ _ _ _ hr2
    refine ⟨j, s, e, l, jv.sim_mem _ s hs, calcExperienceMatch_mem _ _ e he, ?_, hrow⟩
    rw [calcLocationMatch_eq_map] at hl
    obtain ⟨loc, _, hloc⟩ := List.mem_map.mp hl
    rw [← hloc]
    exact locSignal_cases p.location loc

/-- Every returned row's location column is determined by the location
signal of that row's own job. -/
theorem calculateMatch_row_loc (eng : Engine) (p : UserProfile) (topN : Nat)
    (rows : List Row) (logs : List LogEvent)
    (h : calculateMatch eng p topN = .ok (rows, logs))
    (row : Row) (hr : row ∈ rows) :
    row.location_match = npRound2 (locSignal p.location row.job.location * 100) := by
  rcases calculateMatch_ok_cases eng p topN rows logs h with hempty | hmain
  · rw [hempty] at hr
    cases hr
  · obtain ⟨v, jv, jobs, _, _, _, _, _, hrows⟩ := hmain
    rw [hrows] at hr
    have hr1 := List.mem_of_mem_take hr
    have hr2 := (mem_sortByScoreDesc _ _).mp hr1
    rw [calcLocationMatch_eq_map, List.map_map] at hr2
    obtain ⟨j, s, e, _, _, _, hrow⟩ :=
      mem_scoreRows_aligned _ _ _ _ _ _ hr2
    rw [hrow]
    rfl

/-- A matched skill is a token of the posting's skill list that equals some
lowercased user skill. -/
theorem getMatchedSkills_spec (us : List String) (cell : Option String) :
    ∀ t ∈ getMatchedSkills us cell,
      t ∈ jobSkillTokens cell ∧ ∃ u ∈ us, pyLower u = t := by
  intro t ht
  cases cell with
  | none => cases ht
  | some s =>
    unfold getMatchedSkills at ht
    have ht' := List.mem_filter.mp ht
    refine ⟨ht'.1, ?_⟩
    have := List.elem_iff.mp ht'.2
    obtain ⟨u, hu, hl⟩ := List.mem_map.mp this
    exact ⟨u, hu, hl⟩

/-- A missing skill is a token of the posting's skill list that equals no
lowercased user skill. -/
theorem getMissingSkills_spec (us : List String) (cell : Option String) :
    ∀ t ∈ getMissingSkills us cell,
      t ∈ jobSkillTokens cell ∧ ∀ u ∈ us, pyLower u ≠ t := by
  intro t ht
  cases cell with
  | none => cases ht
  | some s =>
    unfold getMissingSkills at ht
    have ht0 := List.mem_of_mem_take ht
    have ht' := List.mem_filter.mp ht0
    refine ⟨ht'.1, ?_⟩
    intro u hu hln
    have : t ∈ us.map pyLower := List.mem_map.mpr ⟨u, hu, hln⟩
    have := List.elem_iff.mpr this
    rw [this] at ht'
    cases ht'.2

/-- The missing-skills column is capped at five entries. -/
theorem getMissingSkills_length (us : List String) (cell : Option String) :
    (getMissingSkills us cell).length ≤ 5 := by
  cases cell with
  | none => simp [getMissingSkills]
  | some s =>
    unfold getMissingSkills
    exact List.length_take_le 5 _

/-- The missing-skills column preserves the posting's token order. -/
theorem getMissingSkills_sublist (us : List String) (cell : Option String) :
    List.Sublist (getMissingSkills us cell) (jobSkillTokens cell) := by
  cases cell with
  | none => simp [getMissingSkills, jobSkillTokens]
  | some s =>
    unfold getMissingSkills jobSkillTokens
    exact List.Sublist.trans (List.take_sublist _ _) (List.filter_sublist _)

/-- C1.  The claim says a user whose experience point value lies inside a
posting's parsed range `[lo, hi]` gets experience_match = 100.  The code
disagrees: `_calculate_experience_match` compares the user's parsed tuple
against ints, the resulting `TypeError` is caught, and the whole experience
array is zeroed.  Here the posting "2-5 years" parses to `(2, 5)`, the user
string "3" parses with single value 3 — inside the range — yet the
sub-signal is 0 and the reported column is 0, not 100. -/
theorem c1_in_range_experience_scores_zero :
    parseExperienceYears (some "2-5 years") = some (2, 5) ∧
    parseExperienceYears (some "3") = some (3, 5) ∧
    calcExperienceMatch "3" [some "2-5 years"] = [0] ∧
    ∃ logs, calculateMatch eng1 profPoint3 1 = .ok ([row1], logs) ∧
      row1.experience_match = 0 ∧ row1.experience_match ≠ 100 := by
  refine ⟨rfl, rfl, by decide, [.info], rfl, npRound2_zero, ?_⟩
  intro hc
  have h0 : row1.experience_match = 0 := npRound2_zero
  rw [h0] at hc
  norm_num at hc

/-- C8.  The parsing clauses hold: one number `n` gives `[n, n+2]`,
"fresher"/"entry" give `[0,2]`, "senior"/"lead" give `[5,10]`, anything
else gives `[2,5]`, and only an empty or missing string yields no range.
The neutral-score clause fails: a posting with no parsed range receives the
neutral 0.5 only while no other posting's range parses; as soon as one
does, the tuple-versus-int `TypeError` zeroes the whole array, so in the
two-posting corpus below the unparseable posting's reported column is 0,
not the claimed 50. -/
theorem c8_parse_total_but_neutral_score_lost :
    parseExperienceYears (some "3 years") = some (3, 5) ∧
    parseExperienceYears (some "fresher role") = some (0, 2) ∧
    parseExperienceYears (some "Entry level") = some (0, 2) ∧
    parseExperienceYears (some "Senior position") = some (5, 10) ∧
    parseExperienceYears (some "team lead") = some (5, 10) ∧
    parseExperienceYears (some "unspecified") = some (2, 5) ∧
    parseExperienceYears (some "") = none ∧
    parseExperienceYears none = none ∧
    calcExperienceMatch "3 years" [some ""] = [1/2] ∧
    calcExperienceMatch "3 years" [some "", some "2-5 years"] = [0, 0] ∧
    npRound2 ((1 / 2 : ℚ) * 100) = 50 ∧
    ∃ logs, calculateMatch engPair profAny 2 = .ok ([rowPairRange, rowPairNoExp], logs) ∧
      rowPairNoExp.experience_match = 0 ∧ rowPairNoExp.experience_match ≠ 50 := by
  refine ⟨rfl, by decide, by decide, by decide, by decide, by decide, rfl, rfl,
    rfl, by decide, npRound2_half, [.info], ?_, npRound2_zero, ?_⟩
  · have h1 : calculateMatch engPair profAny 2 =
        .ok ((sortByScoreDesc [rowPairNoExp, rowPairRange]).take 2, [.info]) := rfl
    rw [h1]
    simp only [sortByScoreDesc, insertDesc]
    have hle : ¬ rowPairRange.match_score < rowPairNoExp.match_score := by
      rw [show rowPairNoExp.match_score = rowPairRange.match_score from rfl]
      exact lt_irrefl _
    rw [if_neg hle]
    rfl
  · intro hc
    have h0 : rowPairNoExp.experience_match = 0 := npRound2_zero
    rw [h0] at hc
    norm_num at hc

/-- C10.  `save_model` unconditionally calls `os.makedirs` on the path's
directory part; for a bare filename that part is the empty string, whose
creation raises, so save fails (wrapped as a domain error) before writing,
and a successful save implies the path had a directory component. -/
theorem c10_bare_filename_save_raises (eng : Engine) (fs : Store) (path : String) :
    (pyDirname path = "" → saveModel eng path fs = .error .fileNotFound) ∧
    (∀ fs', saveModel eng path fs = .ok fs' → ¬ pyDirname path = "") := by
  constructor
  · intro h
    unfold saveModel
    rw [if_pos h]
  · intro fs' h hdir
    unfold saveModel at h
    rw [if_pos hdir] at h
    cases h

/-- Witness for C10 at a bare filename and at a path with a directory. -/
theorem c10_bare_filename_save_raises_witness :
    saveModel eng1 "model.pkl" [] = .error .fileNotFound ∧
    ¬ pyDirname "models/m.pkl" = "" :=
  ⟨(c10_bare_filename_save_raises eng1 [] "model.pkl").1 rfl,
   (c10_bare_filename_save_raises eng1 [] "models/m.pkl").2
     (setFile [] "models/m.pkl" (some ⟨eng1.vectorizer, eng1.job_vectors, eng1.jobs_df⟩))
     rfl⟩

/-- C3, counterexample.  The claim says every not-successfully-trained state
— including a present but unfitted vectorizer — returns empty and logs a
warning.  On an engine whose vectorizer exists with unpopulated IDF state
(left behind by a failed fit), `calculate_match` returns empty but logs an
error, not a warning. -/
theorem c3_unfitted_logs_error_counterexample :
    calculateMatch engUnfitted prof1 5 = .ok ([], [.err]) ∧
    ¬ ∃ rows, calculateMatch engUnfitted prof1 5 = .ok (rows, [.warn]) := by
  constructor
  · rfl
  · rintro ⟨rows, h⟩
    have h0 : calculateMatch engUnfitted prof1 5 = .ok ([], [.err]) := rfl
    rw [h0] at h
    simp at h

/-- C3, amended.  On any engine with no vectorizer or no corpus,
`calculate_match` returns an empty result and logs a warning without
raising; on any engine whose vectorizer is present but lacks fitted IDF
state (and whose corpus is present), it returns an empty result and logs an
error without raising. -/
theorem c3_untrained_returns_empty (eng : Engine) (p : UserProfile) (topN : Nat) :
    (eng.vectorizer = none ∨ eng.jobs_df = none →
      calculateMatch eng p topN = .ok ([], [.warn])) ∧
    (∀ v, eng.vectorizer = some v → v.idfFitted = false → eng.jobs_df ≠ none →
      calculateMatch eng p topN = .ok ([], [.err])) := by
  obtain ⟨ov, ojv, oj⟩ := eng
  constructor
  · rintro (h | h) <;> dsimp only at h <;> subst h
    · rfl
    · cases ov with
      | none => rfl
      | some v => rfl
  · intro v hv hfit hj
    dsimp only at hv hj
    subst hv
    cases oj with
    | none => exact absurd rfl hj
    | some jobs =>
      unfold calculateMatch
      dsimp only
      rw [if_pos hfit]

/-- Witness for C3 at a fresh engine and at an unfitted-vectorizer engine. -/
theorem c3_untrained_returns_empty_witness :
    calculateMatch untrainedEngine prof1 10 = .ok ([], [.warn]) ∧
    calculateMatch engUnfitted prof1 10 = .ok ([], [.err]) :=
  ⟨(c3_untrained_returns_empty untrainedEngine prof1 10).1 (Or.inl rfl),
   (c3_untrained_returns_empty engUnfitted prof1 10).2 ⟨false⟩ rfl rfl
     (by intro h; cases h)⟩

/-- C7, counterexample.  The claim says `load` on a missing path leaves the
engine untrained.  Loading a missing path into an already-trained engine
returns failure but leaves the trained state in place. -/
theorem c7_missing_path_keeps_state_counterexample :
    loadModel "models/m.pkl" [] eng1 = (false, eng1, [.warn]) ∧
    (loadModel "models/m.pkl" [] eng1).2.1 ≠ untrainedEngine := by
  constructor
  · rfl
  · intro h
    have h1 : (loadModel "models/m.pkl" [] eng1).2.1 = eng1 := rfl
    rw [h1] at h
    have hv := congrArg Engine.vectorizer h
    simp [eng1, untrainedEngine] at hv

/-- C7, amended.  `load` on a missing path returns `False` with a warning
and leaves the engine exactly unchanged (so a fresh engine stays
untrained); an unpicklable blob is caught, logs an error, resets all three
fields and returns `False`; a blob whose recovered vectorizer is absent or
lacks fitted IDF state logs a warning, resets all three fields and returns
`False`; no case propagates an exception. -/
theorem c7_load_failure_resets (path : String) (fs : Store) (eng : Engine) :
    (lookupFile fs path = none →
      loadModel path fs eng = (false, eng, [.warn])) ∧
    (lookupFile fs path = some none →
      loadModel path fs eng = (false, untrainedEngine, [.err])) ∧
    (∀ md, lookupFile fs path = some (some md) →
      (md.vectorizer = none ∨ ∃ v, md.vectorizer = some v ∧ v.idfFitted = false) →
      loadModel path fs eng = (false, untrainedEngine, [.warn])) := by
  refine ⟨?_, ?_, ?_⟩
  · intro h
    unfold loadModel
    rw [h]
  · intro h
    unfold loadModel
    rw [h]
  · intro md h hcase
    unfold loadModel
    rw [h]
    dsimp only
    rcases hcase with hv | ⟨v, hv, hfit⟩
    · rw [hv]
    · rw [hv]
      dsimp only
      rw [hfit]
      rfl

/-- Witness for C7: a missing path on a fresh engine, a corrupt blob, and an
unfitted-vectorizer blob on a trained engine. -/
theorem c7_load_failure_resets_witness :
    loadModel "models/m.pkl" [] untrainedEngine = (false, untrainedEngine, [.warn]) ∧
    loadModel "x/y.pkl" [("x/y.pkl", none)] eng1 = (false, untrainedEngine, [.err]) ∧
    loadModel "x/y.pkl" [("x/y.pkl", some ⟨some ⟨false⟩, none, none⟩)] eng1 =
      (false, untrainedEngine, [.warn]) :=
  ⟨(c7_load_failure_resets "models/m.pkl" [] untrainedEngine).1 rfl,
   (c7_load_failure_resets "x/y.pkl" [("x/y.pkl", none)] eng1).2.1 rfl,
   (c7_load_failure_resets "x/y.pkl" [("x/y.pkl", some ⟨some ⟨false⟩, none, none⟩)]
     eng1).2.2 ⟨some ⟨false⟩, none, none⟩ rfl (Or.inr ⟨⟨false⟩, rfl, rfl⟩)⟩

/-- C2.  Every returned row carries three sub-signals in `[0,1]` that yield
the reported skills/experience/location columns (each rounded to two
decimals after scaling by 100), and the combined score column is exactly
`round(100*(0.7*skills + 0.2*experience + 0.1*location), 2)` in exact
rational arithmetic. -/
theorem c2_weight_conservation (eng : Engine) (p : UserProfile) (topN : Nat)
    (rows : List Row) (logs : List LogEvent)
    (h : calculateMatch eng p topN = .ok (rows, logs))
    (row : Row) (hr : row ∈ rows) :
    ∃ s e l, (0 ≤ s ∧ s ≤ 1) ∧ (0 ≤ e ∧ e ≤ 1) ∧ (0 ≤ l ∧ l ≤ 1) ∧
      row.skills_match = npRound2 (s * 100) ∧
      row.experience_match = npRound2 (e * 100) ∧
      row.location_match = npRound2 (l * 100) ∧
      row.match_score = npRound2 (100 * (7/10 * s + 2/10 * e + 1/10 * l)) := by
  obtain ⟨j, s, e, l, hs, he, hl, hrow⟩ :=
    calculateMatch_row_shape eng p topN rows logs h row hr
  refine ⟨s, e, l, hs, ?_, ?_, ?_, ?_, ?_, ?_⟩
  · rcases he with he | he <;> rw [he] <;> norm_num
  · rcases hl with hl | hl <;> rw [hl] <;> norm_num
  · rw [hrow]; rfl
  · rw [hrow]; rfl
  · rw [hrow]; rfl
  · rw [hrow]
    show npRound2 ((s * (7/10) + e * (2/10) + l * (1/10)) * 100) = _
    congr 1
    ring

/-- Witness for C2 on the one-posting trained engine. -/
theorem c2_weight_conservation_witness :
    ∃ s e l, (0 ≤ s ∧ s ≤ 1) ∧ (0 ≤ e ∧ e ≤ 1) ∧ (0 ≤ l ∧ l ≤ 1) ∧
      row1.skills_match = npRound2 (s * 100) ∧
      row1.experience_match = npRound2 (e * 100) ∧
      row1.location_match = npRound2 (l * 100) ∧
      row1.match_score = npRound2 (100 * (7/10 * s + 2/10 * e + 1/10 * l)) :=
  c2_weight_conservation eng1 prof1 5 [row1] [.info] rfl row1
    (List.mem_singleton.mpr rfl)

/-- C9.  Every returned row has all four reported columns within `[0, 100]`,
the rows are in descending `match_score` order, and at most `top_n` rows
are returned. -/
theorem c9_bounds_order_topn (eng : Engine) (p : UserProfile) (topN : Nat)
    (rows : List Row) (logs : List LogEvent)
    (h : calculateMatch eng p topN = .ok (rows, logs)) :
    (∀ row ∈ rows,
      (0 ≤ row.match_score ∧ row.match_score ≤ 100) ∧
      (0 ≤ row.skills_match ∧ row.skills_match ≤ 100) ∧
      (0 ≤ row.experience_match ∧ row.experience_match ≤ 100) ∧
      (0 ≤ row.location_match ∧ row.location_match ≤ 100)) ∧
    rows.Pairwise (fun a b => b.match_score ≤ a.match_score) ∧
    rows.length ≤ topN := by
  refine ⟨?_, ?_, ?_⟩
  · intro row hr
    obtain ⟨j, s, e, l, hs, he, hl, hrow⟩ :=
      calculateMatch_row_shape eng p topN rows logs h row hr
    have he' : 0 ≤ e ∧ e ≤ 1 := by
      rcases he with he | he <;> rw [he] <;> norm_num
    have hl' : 0 ≤ l ∧ l ≤ 1 := by
      rcases hl with hl | hl <;> rw [hl] <;> norm_num
    rw [hrow]
    refine ⟨?_, ?_, ?_, ?_⟩
    · exact npRound2_bounds _ (by nlinarith [hs.1, hs.2, he'.1, he'.2, hl'.1, hl'.2])
        (by nlinarith [hs.1, hs.2, he'.1, he'.2, hl'.1, hl'.2])
    · exact npRound2_bounds _ (by nlinarith [hs.1]) (by nlinarith [hs.2])
    · exact npRound2_bounds _ (by nlinarith [he'.1]) (by nlinarith [he'.2])
    · exact npRound2_bounds _ (by nlinarith [hl'.1]) (by nlinarith [hl'.2])
  · rcases calculateMatch_ok_cases eng p topN rows logs h with hempty | hmain
    · rw [hempty]
      exact List.Pairwise.nil
    · obtain ⟨v, jv, jobs, _, _, _, _, _, hrows⟩ := hmain
      rw [hrows]
      exact List.Pairwise.sublist (List.take_sublist _ _) (sortByScoreDesc_pairwise _)
  · rcases calculateMatch_ok_cases eng p topN rows logs h with hempty | hmain
    · rw [hempty]
      exact Nat.zero_le _
    · obtain ⟨v, jv, jobs, _, _, _, _, _, hrows⟩ := hmain
      rw [hrows]
      exact List.length_take_le _ _

/-- Witness for C9 on the one-posting trained engine. -/
theorem c9_bounds_order_topn_witness :
    (∀ row ∈ [row1],
      (0 ≤ row.match_score ∧ row.match_score ≤ 100) ∧
      (0 ≤ row.skills_match ∧ row.skills_match ≤ 100) ∧
      (0 ≤ row.experience_match ∧ row.experience_match ≤ 100) ∧
      (0 ≤ row.location_match ∧ row.location_match ≤ 100)) ∧
    List.Pairwise (fun a b => b.match_score ≤ a.match_score) [row1] ∧
    List.length [row1] ≤ 5 :=
  c9_bounds_order_topn eng1 prof1 5 [row1] [.info] rfl

/-- C4, counterexample.  The claim says both locations are normalized before
comparison.  "Powai" and "Mumbai" normalize to the same canonical city, yet
a user preferring "Powai" scores the Mumbai posting 0, because the code
normalizes only the posting's side. -/
theorem c4_user_location_not_normalized_counterexample :
    normalizeLocation (some "Powai") = "Mumbai" ∧
    normalizeLocation (some "Mumbai") = "Mumbai" ∧
    profPowai.location = "Powai" ∧ jobMumbai.location = some "Mumbai" ∧
    ∃ logs, calculateMatch engMumbai profPowai 1 = .ok ([rowPowaiMumbai], logs) ∧
      rowPowaiMumbai.location_match = 0 ∧ rowPowaiMumbai.location_match ≠ 100 := by
  refine ⟨by decide, by decide, rfl, rfl, [.info], rfl, npRound2_zero, ?_⟩
  intro hc
  have h0 : rowPowaiMumbai.location_match = 0 := npRound2_zero
  rw [h0] at hc
  norm_num at hc

/-- C4, amended.  With an empty or "any" preference every returned row's
location column is 100.  Otherwise the column is binary — 0 or 100 — and it
is 100 exactly when the posting's normalized location equals the user's
location as given (lowercased, not normalized), or the posting's normalized
location contains "remote". -/
theorem c4_location_binary_policy (eng : Engine) (p : UserProfile) (topN : Nat)
    (rows : List Row) (logs : List LogEvent)
    (h : calculateMatch eng p topN = .ok (rows, logs))
    (row : Row) (hr : row ∈ rows) :
    ((p.location = "" ∨ pyLower p.location = "any") → row.location_match = 100) ∧
    (row.location_match = 0 ∨ row.location_match = 100) ∧
    (¬(p.location = "" ∨ pyLower p.location = "any") →
      (row.location_match = 100 ↔
        pyLower (normalizeLocation row.job.location) = pyLower p.location ∨
        containsSub "remote" (pyLower (normalizeLocation row.job.location)) = true)) := by
  have hloc := calculateMatch_row_loc eng p topN rows logs h row hr
  refine ⟨?_, ?_, ?_⟩
  · intro hpref
    rw [hloc]
    unfold locSignal
    rw [if_pos hpref]
    exact npRound2_one
  · rcases locSignal_cases p.location row.job.location with h0 | h1
    · exact Or.inl (by rw [hloc, h0]; exact npRound2_zero)
    · exact Or.inr (by rw [hloc, h1]; exact npRound2_one)
  · intro hpref
    rw [hloc]
    unfold locSignal
    rw [if_neg hpref]
    unfold locPointwise
    split_ifs with hA hB
    · exact ⟨fun _ => Or.inl hA, fun _ => npRound2_one⟩
    · exact ⟨fun _ => Or.inr hB, fun _ => npRound2_one⟩
    · constructor
      · intro hc
        rw [npRound2_zero] at hc
        norm_num at hc
      · rintro (hc | hc)
        · exact absurd hc hA
        · exact absurd hc hB

/-- Witness for C4: exact city match scores 100, and the no-preference
branch scores 100. -/
theorem c4_location_binary_policy_witness :
    ((prof1.location = "" ∨ pyLower prof1.location = "any") →
      row1.location_match = 100) ∧
    (row1.location_match = 0 ∨ row1.location_match = 100) ∧
    (¬(prof1.location = "" ∨ pyLower prof1.location = "any") →
      (row1.location_match = 100 ↔
        pyLower (normalizeLocation row1.job.location) = pyLower prof1.location ∨
        containsSub "remote" (pyLower (normalizeLocation row1.job.location)) = true)) :=
  c4_location_binary_policy eng1 prof1 5 [row1] [.info] rfl row1
    (List.mem_singleton.mpr rfl)

/-- C5.  Matched skills are posting skill tokens that equal some lowercased
user skill; missing skills are posting skill tokens equal to no lowercased
user skill, at most five of them, listed in the posting's token order. -/
theorem c5_skills_explanations (eng : Engine) (p : UserProfile) (topN : Nat)
    (rows : List Row) (logs : List LogEvent)
    (h : calculateMatch eng p topN = .ok (rows, logs))
    (row : Row) (hr : row ∈ rows) :
    (∀ t ∈ row.matched_skills,
      t ∈ jobSkillTokens row.job.skills ∧ ∃ u ∈ p.skills, pyLower u = t) ∧
    (∀ t ∈ row.missing_skills,
      t ∈ jobSkillTokens row.job.skills ∧ ∀ u ∈ p.skills, pyLower u ≠ t) ∧
    row.missing_skills.length ≤ 5 ∧
    List.Sublist row.missing_skills (jobSkillTokens row.job.skills) := by
  obtain ⟨j, s, e, l, _, _, _, hrow⟩ :=
    calculateMatch_row_shape eng p topN rows logs h row hr
  rw [hrow]
  exact ⟨getMatchedSkills_spec _ _, getMissingSkills_spec _ _,
    getMissingSkills_length _ _, getMissingSkills_sublist _ _⟩

/-- Witness for C5 on the one-posting trained engine. -/
theorem c5_skills_explanations_witness :
    (∀ t ∈ row1.matched_skills,
      t ∈ jobSkillTokens row1.job.skills ∧ ∃ u ∈ prof1.skills, pyLower u = t) ∧
    (∀ t ∈ row1.missing_skills,
      t ∈ jobSkillTokens row1.job.skills ∧ ∀ u ∈ prof1.skills, pyLower u ≠ t) ∧
    row1.missing_skills.length ≤ 5 ∧
    List.Sublist row1.missing_skills (jobSkillTokens row1.job.skills) :=
  c5_skills_explanations eng1 prof1 5 [row1] [.info] rfl row1
    (List.mem_singleton.mpr rfl)

/-- C6, counterexample.  The claim quantifies over every corpus, but on the
empty corpus `train` leaves the engine unfitted and `save` then raises
(reading `vocabulary_` of the absent vectorizer), so the save-then-load
sequence does not succeed. -/
theorem c6_empty_corpus_roundtrip_fails :
    trainWith fitW [] untrainedEngine = .ok (untrainedEngine, [.warn]) ∧
    saveModel untrainedEngine "models/m.pkl" [] = .error .attributeError :=
  ⟨rfl, rfl⟩

/-- C6, amended.  For every non-empty corpus on which fitting succeeds (the
fitted vectorizer has populated IDF state, as sklearn guarantees), every
profile, every `top_n`, and every path with a directory component: after
training, `save` succeeds, `load` of that path into a fresh engine returns
success, and the fresh engine's `calculate_match` output equals the
original engine's. -/
theorem c6_save_load_roundtrip
    (fit : List Job → Except PyExc (Vectorizer × JobVecs))
    (jobs : List Job) (p : UserProfile) (topN : Nat) (path : String)
    (fs : Store) (e : Engine) (logs : List LogEvent)
    (hne : jobs ≠ [])
    (hfit : ∀ v jv, fit jobs = .ok (v, jv) → v.idfFitted = true)
    (htr : trainWith fit jobs untrainedEngine = .ok (e, logs))
    (hdir : ¬ pyDirname path = "") :
    ∃ fs', saveModel e path fs = .ok fs' ∧
      ∃ e' loadLogs, loadModel path fs' untrainedEngine = (true, e', loadLogs) ∧
        calculateMatch e' p topN = calculateMatch e p topN := by
  unfold trainWith at htr
  rw [if_neg (by simpa using hne)] at htr
  cases hf : fit jobs with
  | error ex => rw [hf] at htr; cases htr
  | ok vjv =>
    obtain ⟨v, jv⟩ := vjv
    rw [hf] at htr
    cases htr
    have hvf : v.idfFitted = true := hfit v jv hf
    refine ⟨setFile fs path (some ⟨some v, some jv, some jobs⟩), ?_, ?_⟩
    · unfold saveModel
      rw [if_neg hdir]
      dsimp only
      rw [hvf]
      rfl
    · refine ⟨⟨some v, some jv, some jobs⟩, [.info], ?_, rfl⟩
      unfold loadModel
      rw [lookupFile_setFile]
      dsimp only
      rw [hvf]
      rfl

/-- Witness for C6 on a one-posting corpus and a concrete fitting outcome. -/
theorem c6_save_load_roundtrip_witness :
    ∃ fs', saveModel engTrained1 "models/m.pkl" [] = .ok fs' ∧
      ∃ e' loadLogs, loadModel "models/m.pkl" fs' untrainedEngine = (true, e', loadLogs) ∧
        calculateMatch e' prof1 5 = calculateMatch engTrained1 prof1 5 :=
  c6_save_load_roundtrip fitW [job1] prof1 5 "models/m.pkl" [] engTrained1 [.info]
    (by simp)
    (fun v jv hok => by cases Except.ok.inj hok; rfl)
    rfl
    (by decide)

end JobReco
